import Mathlib

/-!
Verification of the appointment slot resolution and booking-conflict engine.

Shallow embedding of the clinic booking code:
* `bookAppointment` embeds POST /api/appointments (src/app/api/appointments/route.ts),
* `putAppointment` embeds PUT /api/appointments (cancellation),
* `generateTimeSlotsFuel` embeds the `while (current < end)` loop of
  `generateTimeSlots` (src/unnamed/part_007, optimize-database, verify-db),
* `processScheduleSlots` embeds the slot materialization of src/unnamed/part_007,
* `resolveSchedule` embeds the fallback chain of
  GET /api/schedule-optimized/[doctorId] (enhanced route).

Conventions: clock times are minutes since midnight (`Int`, since the slot
duration can be a non-positive integer), dates are abstract day indices
(`Nat`, standing for "YYYY-MM-DD" strings compared for equality), and
identifiers are abstract numerals standing for 24-hex-character ObjectIds.
Absent or empty ("" is falsy in the source) fields are `Option.none`.
-/

set_option maxHeartbeats 1000000

namespace Clinic

/-- Appointment status values used by the API routes: only `pending` and
`confirmed` are the slot-consuming states. -/
inductive Status where
  | pending
  | confirmed
  | cancelled
  | completed
  | rejected
deriving DecidableEq, Repr

/-- An appointment document of the `appointments` collection, with the fields
the booking POST writes (src/app/api/appointments/route.ts). -/
structure Appointment where
  id : Nat
  appointmentKey : Nat
  doctorId : Nat
  patientId : Nat
  date : Nat
  time : Int
  sessionStartTime : Int
  status : Status
  doctorName : String
  patientName : String
  adrees : String
  createdAt : Nat
  updatedAt : Nat
deriving DecidableEq, Repr

/-- The conflict predicate of the booking POST: the `findOne` filter
`{doctorId, date, time, status: {$in: ["confirmed", "pending"]}}`. -/
def blocksSlot (a : Appointment) (d : Nat) (dt : Nat) (t : Int) : Bool :=
  a.doctorId == d && a.date == dt && a.time == t &&
    (a.status == Status.confirmed || a.status == Status.pending)

/-- The `findOne` call checking whether the slot is already booked; `findOne`
without a sort returns the first matching document in collection order. -/
def findConflict (apts : List Appointment) (d : Nat) (dt : Nat) (t : Int) :
    Option Appointment :=
  apts.find? (fun a => blocksSlot a d dt t)

/-- The JSON body of the booking POST; each field may be absent. -/
structure BookRequest where
  doctorId : Option Nat
  patientId : Option Nat
  date : Option Nat
  time : Option Int
  doctorName : Option String
  patientName : Option String
  doctorAddress : Option String
  appointmentKey : Option Nat
deriving Repr

/-- Outcomes of the booking POST: 400 "Missing required fields",
400 "Time slot already booked" (the ConflictError), or success. -/
inductive BookResult where
  | missingFields
  | conflict
  | booked (a : Appointment)
deriving DecidableEq, Repr

/-- The appointment document the booking POST inserts. `freshId` models the
generated ObjectId, `freshKey` the random 6-digit key (used when the request
carries none), `now` the clock, and `patients` the patients collection
(patient id to name) consulted when the request has no patientName. -/
def mkAppointment (req : BookRequest) (d p : Nat) (dt : Nat) (t : Int)
    (freshId freshKey now : Nat) (patients : Nat → Option String) : Appointment :=
  { id := freshId
    appointmentKey := req.appointmentKey.getD freshKey
    doctorId := d
    patientId := p
    date := dt
    time := t
    sessionStartTime := t
    status := Status.pending
    doctorName := req.doctorName.getD "Unknown Doctor"
    patientName := req.patientName.getD ((patients p).getD "Unknown Patient")
    adrees := req.doctorAddress.getD ""
    createdAt := now
    updatedAt := now }

/-- POST /api/appointments: require the four key fields, check the conflict
predicate, and only when no pending/confirmed appointment holds the slot
insert a new `pending` appointment. Returns the outcome and the new state of
the `appointments` collection. -/
def bookAppointment (apts : List Appointment) (req : BookRequest)
    (freshId freshKey now : Nat) (patients : Nat → Option String) :
    BookResult × List Appointment :=
  match req.doctorId, req.patientId, req.date, req.time with
  | some d, some p, some dt, some t =>
    match findConflict apts d dt t with
    | some _ => (BookResult.conflict, apts)
    | none =>
      let a := mkAppointment req d p dt t freshId freshKey now patients
      (BookResult.booked a, apts ++ [a])
  | _, _, _, _ => (BookResult.missingFields, apts)

/-- Outcomes of the cancellation PUT: 400 "Missing required fields",
403 "Patients can only cancel appointments", 404 "Appointment not found or
unauthorized", 400 "Appointment is already cancelled" (the ValidationError),
500 "Failed to cancel appointment", or success. -/
inductive PutResult where
  | missingFields
  | notAllowed
  | notFound
  | alreadyCancelled
  | updateFailed
  | success
deriving DecidableEq, Repr

/-- Mongo `updateOne`: apply `f` to the first document matching `p`. -/
def updateFirst (p : α → Bool) (f : α → α) : List α → List α
  | [] => []
  | a :: as => if p a then f a :: as else a :: updateFirst p f as

/-- PUT /api/appointments: cancellation. Requires all three body fields; only
the status "cancelled" is allowed; the appointment is looked up by
`{_id, patientId}` (ownership check); an already-cancelled appointment is
rejected; otherwise `updateOne` by `{_id}` sets status `cancelled` and
refreshes `updatedAt` (the 500 branch mirrors the `modifiedCount === 0`
check). -/
def putAppointment (apts : List Appointment)
    (appointmentId : Option Nat) (status : Option Status) (patientId : Option Nat)
    (now : Nat) : PutResult × List Appointment :=
  match appointmentId, status, patientId with
  | some aid, some st, some pid =>
    if st != Status.cancelled then (PutResult.notAllowed, apts)
    else
      match apts.find? (fun a => a.id == aid && a.patientId == pid) with
      | none => (PutResult.notFound, apts)
      | some appt =>
        if appt.status == Status.cancelled then (PutResult.alreadyCancelled, apts)
        else
          if (apts.find? (fun a => a.id == aid)).isNone then
            (PutResult.updateFailed, apts)
          else
            (PutResult.success,
             updateFirst (fun a => a.id == aid)
               (fun a => { a with status := Status.cancelled, updatedAt := now }) apts)
  | _, _, _ => (PutResult.missingFields, apts)

/-- Fuel-indexed unfolding of the `while (current < endTime)` loop of
`generateTimeSlots`: push `current`, advance by `dur` minutes. `none` means
the loop is still running after `fuel` iterations; the source loop has no
iteration bound and no duration check. -/
def generateTimeSlotsFuel (endT dur : Int) : Nat → Int → Option (List Int)
  | 0, current => if current < endT then none else some []
  | fuel + 1, current =>
    if current < endT then
      (generateTimeSlotsFuel endT dur fuel (current + dur)).map (fun l => current :: l)
    else some []

/-- The slot-generation loop never exits, whatever iteration bound is allowed. -/
def loopsForever (endT dur start : Int) : Prop :=
  ∀ n, generateTimeSlotsFuel endT dur n start = none

/-- A day schedule as consumed by the slot components (`OptimizedSchedule` in
src/unnamed/part_007 and the `days` entries of the schedule routes).
`slotduration` holds the parsed value of the `slotduration` string field;
`morningSlots`/`eveningSlots` are the optional pre-materialized slot arrays. -/
structure DaySchedule where
  dayOfWeek : String
  isOffDay : Bool
  morningStart : Option Int
  morningEnd : Option Int
  eveningStart : Option Int
  eveningEnd : Option Int
  morningSlots : Option (List Int)
  eveningSlots : Option (List Int)
  slotduration : Option Int
deriving DecidableEq, Repr

/-- One session of `processScheduleSlots`: pre-materialized slots are used
verbatim when present; otherwise, when both bounds are present, slots are
generated with duration `parseInt(slotduration || "30")`; otherwise the
session is empty. -/
def sessionSlots (pre : Option (List Int)) (start endT : Option Int)
    (dur : Option Int) (fuel : Nat) : Option (List Int) :=
  match pre with
  | some slots => some slots
  | none =>
    match start, endT with
    | some s, some e => generateTimeSlotsFuel e (dur.getD 30) fuel s
    | _, _ => some []

/-- The slot materialization `processScheduleSlots` of src/unnamed/part_007
(same shape as `generateSlotsForDay` in verify-db): an off day short-circuits
to empty morning and evening lists before any other field is consulted;
otherwise the two sessions are produced independently. `none` propagates a
non-terminating generator call. -/
def processScheduleSlots (s : DaySchedule) (fuel : Nat) :
    Option (List Int × List Int) :=
  if s.isOffDay then some ([], [])
  else
    match sessionSlots s.morningSlots s.morningStart s.morningEnd s.slotduration fuel,
          sessionSlots s.eveningSlots s.eveningStart s.eveningEnd s.slotduration fuel with
    | some m, some e => some (m, e)
    | _, _ => none

/-- A document of the `doctor_schedules` collection: optional week bounds
(absent on the doctor's general schedule) and the per-weekday entries. -/
structure ScheduleDoc where
  id : Nat
  doctorId : Nat
  weekStart : Option Nat
  weekEnd : Option Nat
  days : List DaySchedule
deriving DecidableEq, Repr

/-- The week-specific filter `{weekStart: {$lte: date}, weekEnd: {$gte: date}}`:
both bounds must exist and enclose the date. -/
def coversDate (s : ScheduleDoc) (date : Nat) : Bool :=
  match s.weekStart, s.weekEnd with
  | some ws, some we => decide (ws ≤ date) && decide (date ≤ we)
  | _, _ => false

/-- The general-schedule filter
`{weekStart: {$exists: false}, weekEnd: {$exists: false}}`. -/
def isGeneralDoc (s : ScheduleDoc) : Bool :=
  s.weekStart.isNone && s.weekEnd.isNone

/-- Which fallback strategy produced the resolved schedule document. -/
inductive Resolution where
  | weekSpecific (doc : ScheduleDoc)
  | general (doc : ScheduleDoc)
  | anyFallback (doc : ScheduleDoc)
  | defaultSched
deriving DecidableEq, Repr

/-- The document-level fallback chain of GET /api/schedule-optimized/[doctorId]
(enhanced route, the sequence of `findOne` calls): first a week-specific
schedule covering the date, then the general schedule, then any schedule for
the doctor ignoring week bounds, then the hard-coded default. `findOne` is
modeled as the first match in collection order. -/
def resolveSchedule (docs : List ScheduleDoc) (did : Nat) (date : Option Nat) :
    Resolution :=
  let step1 : Option ScheduleDoc :=
    match date with
    | some dt => docs.find? (fun s => s.doctorId == did && coversDate s dt)
    | none => none
  match step1 with
  | some doc => Resolution.weekSpecific doc
  | none =>
    match docs.find? (fun s => s.doctorId == did && isGeneralDoc s) with
    | some doc => Resolution.general doc
    | none =>
      match docs.find? (fun s => s.doctorId == did) with
      | some doc => Resolution.anyFallback doc
      | none => Resolution.defaultSched

/-- The seven weekday names in the order the default schedules list them. -/
def weekdayNames : List String :=
  ["Monday", "Tuesday", "Wednesday", "Thursday", "Friday", "Saturday", "Sunday"]

/-- The `getDefaultSchedule` helper of the optimized schedule route
(Monday-Saturday 09:00-12:00 and 14:00-18:00, Sunday off, 30-minute slots). -/
def getDefaultSchedule : List DaySchedule :=
  weekdayNames.map (fun name =>
    { dayOfWeek := name
      isOffDay := name == "Sunday"
      morningStart := if name == "Sunday" then none else some 540
      morningEnd := if name == "Sunday" then none else some 720
      eveningStart := if name == "Sunday" then none else some 840
      eveningEnd := if name == "Sunday" then none else some 1080
      morningSlots := none
      eveningSlots := none
      slotduration := some 30 })

/-- The inline default `days` of the enhanced schedule route's no-schedule
response (Monday-Saturday 08:00-11:00 and 16:00-21:00, Sunday off,
30-minute slots). -/
def enhancedDefaultDays : List DaySchedule :=
  weekdayNames.map (fun name =>
    { dayOfWeek := name
      isOffDay := name == "Sunday"
      morningStart := if name == "Sunday" then none else some 480
      morningEnd := if name == "Sunday" then none else some 660
      eveningStart := if name == "Sunday" then none else some 960
      eveningEnd := if name == "Sunday" then none else some 1260
      morningSlots := none
      eveningSlots := none
      slotduration := some 30 })

/-- The `days` carried by the enhanced route's response for each outcome of the
fallback chain: the chosen document's days, or the hard-coded default days
when no document exists for the doctor. -/
def resolveScheduleDays (docs : List ScheduleDoc) (did : Nat) (date : Option Nat) :
    List DaySchedule :=
  match resolveSchedule docs did date with
  | Resolution.weekSpecific doc => doc.days
  | Resolution.general doc => doc.days
  | Resolution.anyFallback doc => doc.days
  | Resolution.defaultSched => enhancedDefaultDays

/-- Progress of one booking request through the two storage operations of the
booking POST: the availability check and the insert. -/
inductive PState where
  | idle
  | passed
  | gotConflict
  | gotBooked
deriving DecidableEq, Repr

/-- Per-booker environment: the requesting patient and the generated ObjectId,
appointment key and timestamp of its insert. -/
structure BookerCfg where
  patientId : Nat
  freshId : Nat
  freshKey : Nat
  now : Nat
deriving DecidableEq, Repr

/-- Interleaved state of two concurrent booking requests for the same
`(doctorId, date, time)`: the shared appointments collection and each
request's progress. -/
structure CState where
  apts : List Appointment
  s0 : PState
  s1 : PState
deriving DecidableEq, Repr

/-- The appointment document booker `c` inserts (the booking POST document for
a request that carries only the four key fields). -/
def concAppt (d : Nat) (dt : Nat) (t : Int) (c : BookerCfg) : Appointment :=
  { id := c.freshId
    appointmentKey := c.freshKey
    doctorId := d
    patientId := c.patientId
    date := dt
    time := t
    sessionStartTime := t
    status := Status.pending
    doctorName := "Unknown Doctor"
    patientName := "Unknown Patient"
    adrees := ""
    createdAt := c.now
    updatedAt := c.now }

/-- One scheduler step: booker `i` (`false` = first, `true` = second) performs
its next storage operation. The check and the insert are separate steps, as in
the source, where each is a separate awaited call with no lock across them. -/
def bookStep (d : Nat) (dt : Nat) (t : Int) (c0 c1 : BookerCfg)
    (st : CState) (i : Bool) : CState :=
  match i with
  | false =>
    match st.s0 with
    | PState.idle =>
      if (findConflict st.apts d dt t).isSome then { st with s0 := PState.gotConflict }
      else { st with s0 := PState.passed }
    | PState.passed =>
      { st with apts := st.apts ++ [concAppt d dt t c0], s0 := PState.gotBooked }
    | _ => st
  | true =>
    match st.s1 with
    | PState.idle =>
      if (findConflict st.apts d dt t).isSome then { st with s1 := PState.gotConflict }
      else { st with s1 := PState.passed }
    | PState.passed =>
      { st with apts := st.apts ++ [concAppt d dt t c1], s1 := PState.gotBooked }
    | _ => st

/-- Run a scheduler interleaving (a list of booker choices) from a state. -/
def bookRun (d : Nat) (dt : Nat) (t : Int) (c0 c1 : BookerCfg)
    (st : CState) : List Bool → CState
  | [] => st
  | i :: rest => bookRun d dt t c0 c1 (bookStep d dt t c0 c1 st i) rest

/-- Decomposition of `updateFirst` around the first element satisfying `p`,
when some element of the list satisfies it. -/
theorem updateFirst_decomp {α : Type} (p : α → Bool) (f : α → α) :
    ∀ (l : List α) (a : α), a ∈ l → p a = true →
      ∃ l₁ b l₂, l = l₁ ++ b :: l₂ ∧ (∀ x ∈ l₁, p x = false) ∧ p b = true ∧
        updateFirst p f l = l₁ ++ f b :: l₂ := by
  intro l
  induction l with
  | nil => intro a ha _; exact absurd ha (List.not_mem_nil a)
  | cons c cs ih =>
    intro a ha hpa
    by_cases hc : p c = true
    · refine ⟨[], c, cs, rfl, ?_, hc, ?_⟩
      · intro x hx; exact absurd hx (List.not_mem_nil x)
      · simp [updateFirst, hc]
    · have hcf : p c = false := by simpa using hc
      rcases List.mem_cons.mp ha with h | h
      · subst h; rw [hpa] at hcf; cases hcf
      · obtain ⟨l₁, b, l₂, h1, h2, h3, h4⟩ := ih a h hpa
        refine ⟨c :: l₁, b, l₂, by simp [h1], ?_, h3, ?_⟩
        · intro x hx
          rcases List.mem_cons.mp hx with rfl | hx
          · exact hcf
          · exact h2 x hx
        · simp [updateFirst, hcf, h4]

/-- With positive duration and fuel at least the window length, the
slot-generation loop terminates; its output starts at the current time, every
slot lies in the half-open window, and consecutive slots differ by exactly the
duration. -/
theorem generate_pos_spec (e dv : Int) (hd : 0 < dv) :
    ∀ (n : Nat) (c : Int), (e - c).toNat ≤ n →
      ∃ l, generateTimeSlotsFuel e dv n c = some l ∧
        (∀ t ∈ l, c ≤ t ∧ t < e) ∧
        List.Chain' (fun a b => b = a + dv) l ∧
        (c < e → l.head? = some c) ∧
        (e ≤ c → l = []) := by
  intro n
  induction n with
  | zero =>
    intro c hc
    have he : ¬ c < e := by omega
    refine ⟨[], by simp [generateTimeSlotsFuel, he], by simp, by simp, ?_, fun _ => rfl⟩
    intro h; exact absurd h he
  | succ n ih =>
    intro c hc
    by_cases h : c < e
    · have hfuel : (e - (c + dv)).toNat ≤ n := by omega
      obtain ⟨l, hl, hmem, hchain, hhead, hempty⟩ := ih (c + dv) hfuel
      refine ⟨c :: l, ?_, ?_, ?_, fun _ => rfl, ?_⟩
      · simp [generateTimeSlotsFuel, h, hl]
      · intro t ht
        rcases List.mem_cons.mp ht with rfl | ht
        · exact ⟨le_refl _, h⟩
        · have h2 := hmem t ht
          exact ⟨by omega, h2.2⟩
      · rw [List.chain'_cons']
        refine ⟨?_, hchain⟩
        intro y hy
        by_cases h2 : c + dv < e
        · rw [hhead h2] at hy
          simp at hy
          omega
        · rw [hempty (by omega)] at hy
          simp at hy
      · intro he; omega
    · refine ⟨[], by simp [generateTimeSlotsFuel, h], by simp, by simp, ?_, fun _ => rfl⟩
      intro h2; exact absurd h2 h

/-- Claim C3: for every `start < end` and `duration > 0`, slot generation
terminates (fuel `end - start` suffices) and produces a strictly increasing
sequence beginning at `start`, where every generated slot `t` satisfies
`start <= t < end` and consecutive slots differ by exactly `duration` minutes;
the first generated time `>= end` is excluded (the window is half-open). -/
theorem generateTimeSlots_halfOpen_bounds (s e dv : Int) (hse : s < e)
    (hd : 0 < dv) :
    ∃ l, generateTimeSlotsFuel e dv (e - s).toNat s = some l ∧
      l.head? = some s ∧
      List.Chain' (fun a b => b = a + dv) l ∧
      List.Chain' (fun a b : Int => a < b) l ∧
      ∀ t ∈ l, s ≤ t ∧ t < e := by
  obtain ⟨l, hl, hmem, hchain, hhead, _⟩ :=
    generate_pos_spec e dv hd (e - s).toNat s (le_refl _)
  exact ⟨l, hl, hhead hse, hchain, hchain.imp (fun a b h => by omega), hmem⟩

/-- Witness for C3 on the window 09:00-10:00 with 30-minute slots. -/
theorem generateTimeSlots_halfOpen_bounds_witness :
    ((540 : Int) < 600 ∧ (0 : Int) < 30) ∧
      ∃ l, generateTimeSlotsFuel 600 30 ((600 : Int) - 540).toNat 540 = some l ∧
        l.head? = some 540 ∧
        List.Chain' (fun a b => b = a + 30) l ∧
        List.Chain' (fun a b : Int => a < b) l ∧
        ∀ t ∈ l, (540 : Int) ≤ t ∧ t < 600 :=
  ⟨by norm_num, generateTimeSlots_halfOpen_bounds 540 600 30 (by norm_num) (by norm_num)⟩

/-- With non-positive duration the loop guard `current < end` stays true at
every iteration: the current time never advances toward the end bound. -/
theorem generate_nonpos_none (e dv : Int) (hd : dv ≤ 0) :
    ∀ (n : Nat) (c : Int), c < e → generateTimeSlotsFuel e dv n c = none := by
  intro n
  induction n with
  | zero => intro c hc; simp [generateTimeSlotsFuel, hc]
  | succ n ih =>
    intro c hc
    have h2 : c + dv < e := by omega
    simp [generateTimeSlotsFuel, hc, ih (c + dv) h2]

/-- Claim C6 (amended): `generateTimeSlots` performs no validation of
`durationMinutes`; no InvalidScheduleError exists in the code, and for every
`durationMinutes <= 0` with `start < end` the while loop never exits: the
generator loops forever and never returns a slot list, rather than failing
with an error. -/
theorem generateTimeSlots_nonpos_loopsForever (s e dv : Int) (hd : dv ≤ 0)
    (hse : s < e) : loopsForever e dv s :=
  fun n => generate_nonpos_none e dv hd n s hse

/-- Witness for the amended C6 at duration -10 on the window 00:00-01:00. -/
theorem generateTimeSlots_nonpos_loopsForever_witness :
    ((-10 : Int) ≤ 0 ∧ (0 : Int) < 60) ∧ loopsForever 60 (-10) 0 :=
  ⟨by norm_num, generateTimeSlots_nonpos_loopsForever 0 60 (-10) (by norm_num) (by norm_num)⟩

/-- Counterexample to C6 as stated: with duration 0 on the window 09:00-10:00
the generator produces no outcome at any iteration bound: it loops forever and
raises nothing, contradicting that it fails with an InvalidScheduleError
rather than looping forever. -/
theorem generateTimeSlots_zero_duration_loops : loopsForever 600 0 540 :=
  fun n => generate_nonpos_none 600 0 (by norm_num) n 540 (by norm_num)

/-- Claim C7: a day schedule with `isOffDay = true` short-circuits
`processScheduleSlots` to empty morning and evening slot lists, regardless of
the window bounds, the slot duration, and any pre-materialized slot arrays. -/
theorem processScheduleSlots_offDay (s : DaySchedule) (fuel : Nat)
    (h : s.isOffDay = true) : processScheduleSlots s fuel = some ([], []) := by
  simp [processScheduleSlots, h]

/-- Witness for C7: an off day whose other fields would otherwise produce
slots, including pre-materialized ones. -/
theorem processScheduleSlots_offDay_witness :
    (DaySchedule.isOffDay ⟨"Monday", true, some 540, some 720, some 840,
        some 1080, some [123], some [456], some 30⟩ = true) ∧
      processScheduleSlots ⟨"Monday", true, some 540, some 720, some 840,
        some 1080, some [123], some [456], some 30⟩ 5 = some ([], []) :=
  ⟨rfl, processScheduleSlots_offDay _ 5 rfl⟩

/-- When no document at all belongs to the doctor, every strategy's query
comes back empty and the chain falls through to the hard-coded default. -/
theorem resolve_no_docs_default (docs : List ScheduleDoc) (did : Nat)
    (date : Option Nat) (h : ∀ doc ∈ docs, doc.doctorId ≠ did) :
    resolveSchedule docs did date = Resolution.defaultSched := by
  have h1 : ∀ dt, docs.find? (fun s => s.doctorId == did && coversDate s dt) = none := by
    intro dt
    rw [List.find?_eq_none]
    intro x hx
    simp [h x hx]
  have h2 : docs.find? (fun s => s.doctorId == did && isGeneralDoc s) = none := by
    rw [List.find?_eq_none]
    intro x hx
    simp [h x hx]
  have h3 : docs.find? (fun s => s.doctorId == did) = none := by
    rw [List.find?_eq_none]
    intro x hx
    simp [h x hx]
  cases date with
  | none => simp [resolveSchedule, h2, h3]
  | some dt => simp [resolveSchedule, h1 dt, h2, h3]

/-- Claim C4: the enhanced schedule route applies the fallback chain in a
fixed order, the first strategy with a match winning: (1) a week-specific
document whose bounds enclose the date, (2) the general document without week
bounds, (3) any document for the doctor ignoring week-bound applicability,
(4) the hard-coded default; in particular, when both a covering week-specific
document and a general document exist, the week-specific one is used. -/
theorem resolveSchedule_fallback_order (docs : List ScheduleDoc) (did : Nat)
    (dt : Nat) :
    ((∃ doc ∈ docs, doc.doctorId = did ∧ coversDate doc dt = true) →
      ∃ doc, resolveSchedule docs did (some dt) = Resolution.weekSpecific doc ∧
        doc ∈ docs ∧ doc.doctorId = did ∧ coversDate doc dt = true)
    ∧ ((∀ doc ∈ docs, ¬(doc.doctorId = did ∧ coversDate doc dt = true)) →
      (∃ doc ∈ docs, doc.doctorId = did ∧ isGeneralDoc doc = true) →
      ∃ doc, resolveSchedule docs did (some dt) = Resolution.general doc ∧
        doc ∈ docs ∧ doc.doctorId = did ∧ isGeneralDoc doc = true)
    ∧ ((∀ doc ∈ docs, ¬(doc.doctorId = did ∧ coversDate doc dt = true)) →
      (∀ doc ∈ docs, ¬(doc.doctorId = did ∧ isGeneralDoc doc = true)) →
      (∃ doc ∈ docs, doc.doctorId = did) →
      ∃ doc, resolveSchedule docs did (some dt) = Resolution.anyFallback doc ∧
        doc ∈ docs ∧ doc.doctorId = did)
    ∧ ((∀ doc ∈ docs, doc.doctorId ≠ did) →
      resolveSchedule docs did (some dt) = Resolution.defaultSched) := by
  refine ⟨?_, ?_, ?_, fun h => resolve_no_docs_default docs did (some dt) h⟩
  · rintro ⟨doc, hmem, hdid, hcov⟩
    cases hfind : docs.find? (fun s => s.doctorId == did && coversDate s dt) with
    | none =>
      rw [List.find?_eq_none] at hfind
      exact absurd (by simp [hdid, hcov]) (hfind doc hmem)
    | some d =>
      have hp := List.find?_some hfind
      simp only [Bool.and_eq_true, beq_iff_eq] at hp
      exact ⟨d, by simp [resolveSchedule, hfind], List.mem_of_find?_eq_some hfind,
        hp.1, hp.2⟩
  · intro hno ⟨doc, hmem, hdid, hgen⟩
    have h1 : docs.find? (fun s => s.doctorId == did && coversDate s dt) = none := by
      rw [List.find?_eq_none]
      intro x hx
      simp only [Bool.and_eq_true, beq_iff_eq, not_and]
      intro h2
      exact fun h3 => hno x hx ⟨h2, h3⟩
    cases hfind : docs.find? (fun s => s.doctorId == did && isGeneralDoc s) with
    | none =>
      rw [List.find?_eq_none] at hfind
      exact absurd (by simp [hdid, hgen]) (hfind doc hmem)
    | some d =>
      have hp := List.find?_some hfind
      simp only [Bool.and_eq_true, beq_iff_eq] at hp
      exact ⟨d, by simp [resolveSchedule, h1, hfind], List.mem_of_find?_eq_some hfind,
        hp.1, hp.2⟩
  · intro hno1 hno2 ⟨doc, hmem, hdid⟩
    have h1 : docs.find? (fun s => s.doctorId == did && coversDate s dt) = none := by
      rw [List.find?_eq_none]
      intro x hx
      simp only [Bool.and_eq_true, beq_iff_eq, not_and]
      intro h2
      exact fun h3 => hno1 x hx ⟨h2, h3⟩
    have h2 : docs.find? (fun s => s.doctorId == did && isGeneralDoc s) = none := by
      rw [List.find?_eq_none]
      intro x hx
      simp only [Bool.and_eq_true, beq_iff_eq, not_and]
      intro h3
      exact fun h4 => hno2 x hx ⟨h3, h4⟩
    cases hfind : docs.find? (fun s => s.doctorId == did) with
    | none =>
      rw [List.find?_eq_none] at hfind
      exact absurd (by simp [hdid]) (hfind doc hmem)
    | some d =>
      have hp := List.find?_some hfind
      simp only [beq_iff_eq] at hp
      exact ⟨d, by simp [resolveSchedule, h1, h2, hfind],
        List.mem_of_find?_eq_some hfind, hp⟩

/-- A general schedule document used by the C4 witness: doctor 7, no week
bounds. It is listed before the week-specific one, so the chain's priority,
not collection order, explains the outcome. -/
def generalDocDemo : ScheduleDoc :=
  ⟨2, 7, none, none, [⟨"Monday", false, some 480, some 660, none, none,
    none, none, some 30⟩]⟩

/-- A week-specific schedule document used by the C4 witness: doctor 7,
week bounds enclosing day 5. -/
def weekDocDemo : ScheduleDoc :=
  ⟨1, 7, some 3, some 9, [⟨"Monday", false, some 540, some 720, none, none,
    none, none, some 30⟩]⟩

/-- Witness for C4: with both a covering week-specific document and a general
document in the store, resolution uses the week-specific one. -/
theorem resolveSchedule_fallback_order_witness :
    (∃ doc ∈ [generalDocDemo, weekDocDemo],
        doc.doctorId = 7 ∧ coversDate doc 5 = true) ∧
      ∃ doc, resolveSchedule [generalDocDemo, weekDocDemo] 7 (some 5)
          = Resolution.weekSpecific doc ∧
        doc ∈ [generalDocDemo, weekDocDemo] ∧ doc.doctorId = 7 ∧
        coversDate doc 5 = true :=
  ⟨by decide, (resolveSchedule_fallback_order [generalDocDemo, weekDocDemo] 7 5).1
    (by decide)⟩

/-- Claim C8 (amended): when no schedule document exists for the doctor, the
fallback chain lands on the hard-coded default. The optimized route's
`getDefaultSchedule` is the Monday-Saturday 09:00-12:00/14:00-18:00 schedule
with Sunday off; the enhanced route synthesizes a different inline default,
Monday-Saturday 08:00-11:00/16:00-21:00 with Sunday off. -/
theorem default_schedule_shapes (docs : List ScheduleDoc) (did : Nat) (dt : Nat)
    (h : ∀ doc ∈ docs, doc.doctorId ≠ did) :
    resolveSchedule docs did (some dt) = Resolution.defaultSched ∧
    resolveScheduleDays docs did (some dt) = enhancedDefaultDays ∧
    getDefaultSchedule.map DaySchedule.dayOfWeek = weekdayNames ∧
    (∀ d ∈ getDefaultSchedule,
      (d.dayOfWeek = "Sunday" → d.isOffDay = true) ∧
      (d.dayOfWeek ≠ "Sunday" → d.isOffDay = false ∧
        d.morningStart = some 540 ∧ d.morningEnd = some 720 ∧
        d.eveningStart = some 840 ∧ d.eveningEnd = some 1080)) ∧
    (∀ d ∈ enhancedDefaultDays,
      (d.dayOfWeek = "Sunday" → d.isOffDay = true) ∧
      (d.dayOfWeek ≠ "Sunday" → d.isOffDay = false ∧
        d.morningStart = some 480 ∧ d.morningEnd = some 660 ∧
        d.eveningStart = some 960 ∧ d.eveningEnd = some 1260)) := by
  have h1 := resolve_no_docs_default docs did (some dt) h
  refine ⟨h1, by simp [resolveScheduleDays, h1], by decide, by decide, by decide⟩

/-- Witness for the amended C8: a store holding only another doctor's
document. -/
theorem default_schedule_shapes_witness :
    (∀ doc ∈ [generalDocDemo], doc.doctorId ≠ 9) ∧
      (resolveSchedule [generalDocDemo] 9 (some 2) = Resolution.defaultSched ∧
       resolveScheduleDays [generalDocDemo] 9 (some 2) = enhancedDefaultDays ∧
       getDefaultSchedule.map DaySchedule.dayOfWeek = weekdayNames ∧
       (∀ d ∈ getDefaultSchedule,
         (d.dayOfWeek = "Sunday" → d.isOffDay = true) ∧
         (d.dayOfWeek ≠ "Sunday" → d.isOffDay = false ∧
           d.morningStart = some 540 ∧ d.morningEnd = some 720 ∧
           d.eveningStart = some 840 ∧ d.eveningEnd = some 1080)) ∧
       (∀ d ∈ enhancedDefaultDays,
         (d.dayOfWeek = "Sunday" → d.isOffDay = true) ∧
         (d.dayOfWeek ≠ "Sunday" → d.isOffDay = false ∧
           d.morningStart = some 480 ∧ d.morningEnd = some 660 ∧
           d.eveningStart = some 960 ∧ d.eveningEnd = some 1260))) :=
  ⟨by decide, default_schedule_shapes [generalDocDemo] 9 2 (by decide)⟩

/-- Counterexample to C8 as stated: with no schedule documents at all, the
enhanced route resolves to its hard-coded default whose Monday morning window
starts at 08:00 (480 minutes), not the claimed 09:00 (540 minutes), and ends
at 11:00 (660), not 12:00 (720). -/
theorem enhancedDefault_monday_differs :
    resolveSchedule [] 7 (some 10) = Resolution.defaultSched ∧
    ((resolveScheduleDays [] 7 (some 10)).find?
        (fun d => d.dayOfWeek == "Monday")).map DaySchedule.morningStart
      = some (some 480) ∧
    some (480 : Int) ≠ some 540 := by decide

/-- Claim C9: cancellation is permitted only for the owning patient (a lookup
under a non-owning patientId is rejected as not-found, and success implies the
requester owned the appointment), cancelling an already-cancelled appointment
is rejected with the already-cancelled ValidationError rather than reported as
success, and a successful cancellation is exactly the status transition of the
matched record to `cancelled`. -/
theorem cancel_ownership_and_idempotence (apts : List Appointment)
    (aid pid now : Nat) :
    ((¬ ∃ a ∈ apts, a.id = aid ∧ a.patientId = pid) →
      putAppointment apts (some aid) (some Status.cancelled) (some pid) now
        = (PutResult.notFound, apts))
    ∧ ((putAppointment apts (some aid) (some Status.cancelled) (some pid) now).1
        = PutResult.success →
      ∃ a ∈ apts, a.id = aid ∧ a.patientId = pid ∧ a.status ≠ Status.cancelled)
    ∧ (∀ a, apts.find? (fun b => b.id == aid && b.patientId == pid) = some a →
      a.status = Status.cancelled →
      putAppointment apts (some aid) (some Status.cancelled) (some pid) now
        = (PutResult.alreadyCancelled, apts))
    ∧ ((putAppointment apts (some aid) (some Status.cancelled) (some pid) now).1
        = PutResult.success →
      (putAppointment apts (some aid) (some Status.cancelled) (some pid) now).2
        = updateFirst (fun a => a.id == aid)
            (fun a => { a with status := Status.cancelled, updatedAt := now })
            apts) := by
  refine ⟨?_, ?_, ?_, ?_⟩
  · intro h
    have hfind : apts.find? (fun b => b.id == aid && b.patientId == pid) = none := by
      rw [List.find?_eq_none]
      intro x hx
      simp only [Bool.and_eq_true, beq_iff_eq, not_and]
      intro h1 h2
      exact h ⟨x, hx, h1, h2⟩
    simp [putAppointment, hfind]
  · intro hs
    cases hfind : apts.find? (fun b => b.id == aid && b.patientId == pid) with
    | none => simp [putAppointment, hfind] at hs
    | some a =>
      have hp := List.find?_some hfind
      simp only [Bool.and_eq_true, beq_iff_eq] at hp
      by_cases hc : a.status = Status.cancelled
      · simp [putAppointment, hfind, hc] at hs
      · exact ⟨a, List.mem_of_find?_eq_some hfind, hp.1, hp.2, hc⟩
  · intro a hfind hc
    simp [putAppointment, hfind, hc]
  · intro hs
    cases hfind : apts.find? (fun b => b.id == aid && b.patientId == pid) with
    | none => simp [putAppointment, hfind] at hs
    | some a =>
      have hp := List.find?_some hfind
      simp only [Bool.and_eq_true, beq_iff_eq] at hp
      by_cases hc : a.status = Status.cancelled
      · simp [putAppointment, hfind, hc] at hs
      · cases hfi : apts.find? (fun b => b.id == aid) with
        | none =>
          rw [List.find?_eq_none] at hfi
          exact absurd (by simp [hp.1])
            (hfi a (List.mem_of_find?_eq_some hfind))
        | some b => simp [putAppointment, hfind, hc, hfi]

/-- A pending appointment of patient 5 used by the cancellation witnesses. -/
def apptA : Appointment :=
  ⟨1, 111111, 1, 5, 2, 540, 540, Status.pending, "Doctor One", "Patient Five",
    "", 10, 10⟩

/-- A confirmed appointment of patient 6 used by the cancellation witnesses. -/
def apptB : Appointment :=
  ⟨2, 222222, 1, 6, 2, 570, 570, Status.confirmed, "Doctor One", "Patient Six",
    "", 11, 11⟩

/-- Witness for C9: patient 5 cannot cancel patient 6's appointment. -/
theorem cancel_ownership_and_idempotence_witness :
    (¬ ∃ a ∈ [apptA, apptB], a.id = 2 ∧ a.patientId = 5) ∧
      putAppointment [apptA, apptB] (some 2) (some Status.cancelled) (some 5) 99
        = (PutResult.notFound, [apptA, apptB]) :=
  ⟨by decide, (cancel_ownership_and_idempotence [apptA, apptB] 2 5 99).1 (by decide)⟩

/-- Claim C10: a successful cancellation rewrites exactly one record, the one
matched by the requested id: the collection splits as `l1 ++ a :: l2` before
and `l1 ++ a' :: l2` after, where `a'` is `a` with only `status` set to
`cancelled` and `updatedAt` refreshed (the record update leaves doctorId,
patientId, date, time, sessionStartTime, appointmentKey, createdAt and all
name fields untouched), and the surrounding records `l1`, `l2` are returned
unchanged. -/
theorem cancel_frame (apts apts2 : List Appointment) (aid pid now : Nat)
    (h : putAppointment apts (some aid) (some Status.cancelled) (some pid) now
          = (PutResult.success, apts2)) :
    ∃ l₁ a l₂, apts = l₁ ++ a :: l₂ ∧ a.id = aid ∧
      apts2 = l₁ ++ { a with status := Status.cancelled, updatedAt := now } :: l₂ := by
  cases hfind : apts.find? (fun b => b.id == aid && b.patientId == pid) with
  | none => simp [putAppointment, hfind] at h
  | some a =>
    have hp := List.find?_some hfind
    simp only [Bool.and_eq_true, beq_iff_eq] at hp
    by_cases hc : a.status = Status.cancelled
    · simp [putAppointment, hfind, hc] at h
    · cases hfi : apts.find? (fun b => b.id == aid) with
      | none =>
        rw [List.find?_eq_none] at hfi
        exact absurd (by simp [hp.1]) (hfi a (List.mem_of_find?_eq_some hfind))
      | some b =>
        have h2 : apts2 = updateFirst (fun x => x.id == aid)
            (fun x => { x with status := Status.cancelled, updatedAt := now })
            apts := by
          simp [putAppointment, hfind, hc, hfi] at h
          exact h.symm
        obtain ⟨l₁, c, l₂, hsplit, _, hpc, hupd⟩ :=
          updateFirst_decomp (fun x => x.id == aid)
            (fun x => { x with status := Status.cancelled, updatedAt := now })
            apts a (List.mem_of_find?_eq_some hfind) (by simp [hp.1])
        exact ⟨l₁, c, l₂, hsplit, by simpa using hpc, by rw [h2, hupd]⟩

/-- Unfolding of the booking conflict predicate into propositional form; the
claim lists the slot-consuming statuses as pending-or-confirmed, the query as
confirmed-or-pending. -/
theorem blocksSlot_iff (a : Appointment) (d : Nat) (dt : Nat) (t : Int) :
    blocksSlot a d dt t = true ↔
      a.doctorId = d ∧ a.date = dt ∧ a.time = t ∧
        (a.status = Status.pending ∨ a.status = Status.confirmed) := by
  simp only [blocksSlot, Bool.and_eq_true, Bool.or_eq_true, beq_iff_eq, and_assoc]
  tauto

/-- Claim C1: with all four key fields present, the booking POST returns the
conflict rejection and performs no insert exactly when a pending or confirmed
appointment already holds the `(doctorId, date, time)` triple (cancelled,
rejected and completed appointments never block); and after cancelling the
appointment holding the triple, a fresh booking for the same triple succeeds
and inserts a new pending appointment. -/
theorem bookAppointment_conflict_iff (apts : List Appointment) (req : BookRequest)
    (d p : Nat) (dt : Nat) (t : Int) (freshId freshKey now : Nat)
    (patients : Nat → Option String)
    (hd : req.doctorId = some d) (hp : req.patientId = some p)
    (hdt : req.date = some dt) (ht : req.time = some t) :
    ((bookAppointment apts req freshId freshKey now patients).1
        = BookResult.conflict ∧
      (bookAppointment apts req freshId freshKey now patients).2 = apts
      ↔ ∃ a ∈ apts, a.doctorId = d ∧ a.date = dt ∧ a.time = t ∧
          (a.status = Status.pending ∨ a.status = Status.confirmed))
    ∧ (∀ (target : Appointment) (cnow : Nat),
        target ∈ apts →
        (apts.map Appointment.id).Nodup →
        (∀ a ∈ apts, blocksSlot a d dt t = true → a = target) →
        blocksSlot target d dt t = true →
        ∃ apts2,
          putAppointment apts (some target.id) (some Status.cancelled)
              (some target.patientId) cnow = (PutResult.success, apts2) ∧
          bookAppointment apts2 req freshId freshKey now patients
            = (BookResult.booked
                 (mkAppointment req d p dt t freshId freshKey now patients),
               apts2 ++
                 [mkAppointment req d p dt t freshId freshKey now patients])) := by
  constructor
  · constructor
    · rintro ⟨h1, -⟩
      cases hfind : findConflict apts d dt t with
      | none => simp [bookAppointment, hd, hp, hdt, ht, hfind] at h1
      | some a =>
        simp only [findConflict] at hfind
        have hba := List.find?_some hfind
        exact ⟨a, List.mem_of_find?_eq_some hfind,
          (blocksSlot_iff a d dt t).mp hba⟩
    · rintro ⟨a, ha, hprops⟩
      have hba : blocksSlot a d dt t = true := (blocksSlot_iff a d dt t).mpr hprops
      cases hfind : findConflict apts d dt t with
      | none =>
        simp only [findConflict, List.find?_eq_none] at hfind
        exact absurd hba (hfind a ha)
      | some b => simp [bookAppointment, hd, hp, hdt, ht, hfind]
  · intro target cnow hmem hnodup honly hblock
    have htgt := (blocksSlot_iff target d dt t).mp hblock
    have hnc : target.status ≠ Status.cancelled := by
      rcases htgt.2.2.2 with h | h <;> simp [h]
    have hncb : (target.status == Status.cancelled) = false := by
      rw [Bool.eq_false_iff]
      simp [hnc]
    cases hfind : apts.find?
        (fun b => b.id == target.id && b.patientId == target.patientId) with
    | none =>
      rw [List.find?_eq_none] at hfind
      exact absurd (by simp) (hfind target hmem)
    | some b =>
      have hpb := List.find?_some hfind
      simp only [Bool.and_eq_true, beq_iff_eq] at hpb
      have hbt : b = target :=
        List.inj_on_of_nodup_map hnodup (List.mem_of_find?_eq_some hfind)
          hmem hpb.1
      rw [hbt] at hfind
      cases hfi : apts.find? (fun x => x.id == target.id) with
      | none =>
        rw [List.find?_eq_none] at hfi
        exact absurd (by simp) (hfi target hmem)
      | some c =>
        obtain ⟨l₁, c2, l₂, hsplit, hl1, hpc2, hupd⟩ :=
          updateFirst_decomp (fun x => x.id == target.id)
            (fun x => { x with status := Status.cancelled, updatedAt := cnow })
            apts target hmem (by simp)
        have hc2 : c2 = target := by
          have hc2m : c2 ∈ apts := by
            rw [hsplit]
            exact List.mem_append_right _ (List.mem_cons_self _ _)
          exact List.inj_on_of_nodup_map hnodup hc2m hmem (by simpa using hpc2)
        rw [hc2] at hsplit hupd
        have hidl2 : target.id ∉ l₂.map Appointment.id := by
          rw [hsplit, List.map_append, List.map_cons] at hnodup
          exact (List.nodup_cons.mp (List.Nodup.of_append_right hnodup)).1
        have hnone : findConflict (updateFirst (fun x => x.id == target.id)
            (fun x => { x with status := Status.cancelled, updatedAt := cnow })
            apts) d dt t = none := by
          rw [hupd]
          simp only [findConflict, List.find?_eq_none]
          intro x hx
          rcases List.mem_append.mp hx with hx | hx
          · intro hbl
            have hxa : x ∈ apts := by
              rw [hsplit]; exact List.mem_append_left _ hx
            have hxb := honly x hxa hbl
            have hfalse := hl1 x hx
            rw [hxb] at hfalse
            simp at hfalse
          · rcases List.mem_cons.mp hx with rfl | hx
            · simp [blocksSlot]
            · intro hbl
              have hxa : x ∈ apts := by
                rw [hsplit]
                exact List.mem_append_right _ (List.mem_cons_of_mem _ hx)
              have hxb := honly x hxa hbl
              exact hidl2 (hxb ▸ List.mem_map_of_mem Appointment.id hx)
        refine ⟨updateFirst (fun x => x.id == target.id)
            (fun x => { x with status := Status.cancelled, updatedAt := cnow })
            apts, ?_, ?_⟩
        · simp [putAppointment, hfind, hncb, hfi]
        · simp [bookAppointment, hd, hp, hdt, ht, hnone]

/-- The booking request used by the C1 and C5 witnesses: all four key fields
present, patient 7 asking doctor 1's slot 09:30 on day 2. -/
def reqDemo : BookRequest :=
  ⟨some 1, some 7, some 2, some 570, none, none, none, none⟩

/-- Witness for C1 on a one-appointment store: patient 6's confirmed
appointment blocks the slot, and cancelling it lets the booking through. -/
theorem bookAppointment_conflict_iff_witness :
    (reqDemo.doctorId = some 1 ∧ reqDemo.patientId = some 7 ∧
      reqDemo.date = some 2 ∧ reqDemo.time = some 570) ∧
    (((bookAppointment [apptB] reqDemo 50 123456 20 (fun _ => none)).1
        = BookResult.conflict ∧
      (bookAppointment [apptB] reqDemo 50 123456 20 (fun _ => none)).2 = [apptB]
      ↔ ∃ a ∈ [apptB], a.doctorId = 1 ∧ a.date = 2 ∧ a.time = 570 ∧
          (a.status = Status.pending ∨ a.status = Status.confirmed))
    ∧ (∀ (target : Appointment) (cnow : Nat),
        target ∈ [apptB] →
        (([apptB].map Appointment.id)).Nodup →
        (∀ a ∈ [apptB], blocksSlot a 1 2 570 = true → a = target) →
        blocksSlot target 1 2 570 = true →
        ∃ apts2,
          putAppointment [apptB] (some target.id) (some Status.cancelled)
              (some target.patientId) cnow = (PutResult.success, apts2) ∧
          bookAppointment apts2 reqDemo 50 123456 20 (fun _ => none)
            = (BookResult.booked
                 (mkAppointment reqDemo 1 7 2 570 50 123456 20 (fun _ => none)),
               apts2 ++
                 [mkAppointment reqDemo 1 7 2 570 50 123456 20 (fun _ => none)]))) :=
  ⟨⟨rfl, rfl, rfl, rfl⟩,
   bookAppointment_conflict_iff [apptB] reqDemo 1 7 2 570 50 123456 20
     (fun _ => none) rfl rfl rfl rfl⟩

/-- Claim C5 (amended): the booking POST performs no schedule-membership
validation: for any request with the four key fields present whose
`(doctorId, date, time)` has no pending or confirmed appointment, booking
succeeds and inserts the new pending appointment, regardless of whether the
time occurs among the slots schedule resolution would produce; the route
never consults the doctor_schedules collection and has no
ValidationError("slot not in schedule") outcome. -/
theorem bookAppointment_no_schedule_validation (apts : List Appointment)
    (req : BookRequest) (d p : Nat) (dt : Nat) (t : Int)
    (freshId freshKey now : Nat) (patients : Nat → Option String)
    (hd : req.doctorId = some d) (hp : req.patientId = some p)
    (hdt : req.date = some dt) (ht : req.time = some t)
    (hfree : ∀ a ∈ apts, blocksSlot a d dt t = false) :
    bookAppointment apts req freshId freshKey now patients
      = (BookResult.booked
           (mkAppointment req d p dt t freshId freshKey now patients),
         apts ++ [mkAppointment req d p dt t freshId freshKey now patients]) := by
  have hnone : findConflict apts d dt t = none := by
    simp only [findConflict, List.find?_eq_none]
    intro x hx
    simp [hfree x hx]
  simp [bookAppointment, hd, hp, hdt, ht, hnone]

/-- The stale booking request of the C5 analysis: time 571 (09:31) is on no
30-minute slot grid. -/
def reqStale : BookRequest :=
  ⟨some 1, some 7, some 2, some 571, none, none, none, none⟩

/-- Counterexample to C5 as stated: doctor 1 has no schedule documents, so
resolution yields the hard-coded default whose Monday produces morning slots
08:00-11:00 and evening slots 16:00-21:00 on the half hour; time 571 occurs
in neither list, yet booking it succeeds and inserts instead of rejecting
with ValidationError("slot not in schedule"). -/
theorem bookAppointment_accepts_unscheduled_slot :
    resolveSchedule [] 1 (some 2) = Resolution.defaultSched ∧
    (resolveScheduleDays [] 1 (some 2)).find? (fun dy => dy.dayOfWeek == "Monday")
      = some ⟨"Monday", false, some 480, some 660, some 960, some 1260,
              none, none, some 30⟩ ∧
    processScheduleSlots ⟨"Monday", false, some 480, some 660, some 960,
        some 1260, none, none, some 30⟩ 20
      = some ([480, 510, 540, 570, 600, 630],
              [960, 990, 1020, 1050, 1080, 1110, 1140, 1170, 1200, 1230]) ∧
    ((571 : Int) ∉ [480, 510, 540, 570, 600, 630]) ∧
    ((571 : Int) ∉ [960, 990, 1020, 1050, 1080, 1110, 1140, 1170, 1200, 1230]) ∧
    (bookAppointment [] reqStale 50 123456 20 (fun _ => none)).1
      = BookResult.booked (mkAppointment reqStale 1 7 2 571 50 123456 20
          (fun _ => none)) ∧
    (bookAppointment [] reqStale 50 123456 20 (fun _ => none)).2.length = 1 := by
  decide

/-- Witness for the amended C5: the stale request books successfully on an
empty collection. -/
theorem bookAppointment_no_schedule_validation_witness :
    (reqStale.doctorId = some 1 ∧ reqStale.patientId = some 7 ∧
      reqStale.date = some 2 ∧ reqStale.time = some 571 ∧
      ∀ a ∈ ([] : List Appointment), blocksSlot a 1 2 571 = false) ∧
    bookAppointment [] reqStale 50 123456 20 (fun _ => none)
      = (BookResult.booked
           (mkAppointment reqStale 1 7 2 571 50 123456 20 (fun _ => none)),
         [] ++ [mkAppointment reqStale 1 7 2 571 50 123456 20 (fun _ => none)]) :=
  ⟨⟨rfl, rfl, rfl, rfl, by simp⟩,
   bookAppointment_no_schedule_validation [] reqStale 1 7 2 571 50 123456 20
     (fun _ => none) rfl rfl rfl rfl (by simp)⟩

/-- The first concurrent booker of the C2 analysis: patient 5. -/
def cfgA : BookerCfg := ⟨5, 10, 111111, 0⟩

/-- The second concurrent booker of the C2 analysis: patient 6. -/
def cfgB : BookerCfg := ⟨6, 11, 222222, 0⟩

/-- Counterexample to C2 as stated: under the interleaving where both
availability checks run before either insert (check-A, check-B, insert-A,
insert-B), both bookings succeed and two pending appointments hold the same
`(doctorId, date, time)` triple, so the two calls do not result in exactly
one appointment and one ConflictError. -/
theorem double_booking_interleaving :
    (bookRun 1 2 540 cfgA cfgB ⟨[], PState.idle, PState.idle⟩
        [false, true, false, true]).s0 = PState.gotBooked ∧
    (bookRun 1 2 540 cfgA cfgB ⟨[], PState.idle, PState.idle⟩
        [false, true, false, true]).s1 = PState.gotBooked ∧
    ((bookRun 1 2 540 cfgA cfgB ⟨[], PState.idle, PState.idle⟩
        [false, true, false, true]).apts.filter
      (fun a => blocksSlot a 1 2 540)).length = 2 := by
  decide

/-- Claim C2 (amended): the availability check and the insert of the booking
POST are separate storage operations with no combined atomic conditional
write. When the two requests for a fixed `(doctorId, date, time)` execute
serially, in either order, exactly one books and the other receives the
conflict rejection; but the interleaving where both checks precede both
inserts books both (see the counterexample), so mutual exclusion holds only
for serialized executions. -/
theorem serial_booking_mutual_exclusion (apts : List Appointment) (d : Nat)
    (dt : Nat) (t : Int) (c0 c1 : BookerCfg)
    (hfree : ∀ a ∈ apts, blocksSlot a d dt t = false) :
    ((bookRun d dt t c0 c1 ⟨apts, PState.idle, PState.idle⟩
        [false, false, true, true]).s0 = PState.gotBooked ∧
     (bookRun d dt t c0 c1 ⟨apts, PState.idle, PState.idle⟩
        [false, false, true, true]).s1 = PState.gotConflict ∧
     (bookRun d dt t c0 c1 ⟨apts, PState.idle, PState.idle⟩
        [false, false, true, true]).apts = apts ++ [concAppt d dt t c0]) ∧
    ((bookRun d dt t c0 c1 ⟨apts, PState.idle, PState.idle⟩
        [true, true, false, false]).s1 = PState.gotBooked ∧
     (bookRun d dt t c0 c1 ⟨apts, PState.idle, PState.idle⟩
        [true, true, false, false]).s0 = PState.gotConflict ∧
     (bookRun d dt t c0 c1 ⟨apts, PState.idle, PState.idle⟩
        [true, true, false, false]).apts = apts ++ [concAppt d dt t c1]) := by
  have hnone : findConflict apts d dt t = none := by
    simp only [findConflict, List.find?_eq_none]
    intro x hx
    simp [hfree x hx]
  have h0 : (findConflict apts d dt t).isSome = false := by rw [hnone]; rfl
  have hblock0 : blocksSlot (concAppt d dt t c0) d dt t = true := by
    simp [blocksSlot, concAppt]
  have hblock1 : blocksSlot (concAppt d dt t c1) d dt t = true := by
    simp [blocksSlot, concAppt]
  have h1 : (findConflict (apts ++ [concAppt d dt t c0]) d dt t).isSome = true := by
    simp only [findConflict, List.find?_append]
    simp only [findConflict] at hnone
    rw [hnone]
    simp [List.find?, hblock0]
  have h2 : (findConflict (apts ++ [concAppt d dt t c1]) d dt t).isSome = true := by
    simp only [findConflict, List.find?_append]
    simp only [findConflict] at hnone
    rw [hnone]
    simp [List.find?, hblock1]
  constructor
  · have e1 : bookStep d dt t c0 c1 ⟨apts, PState.idle, PState.idle⟩ false
        = ⟨apts, PState.passed, PState.idle⟩ := by
      simp [bookStep, h0]
    have e2 : bookStep d dt t c0 c1 ⟨apts, PState.passed, PState.idle⟩ false
        = ⟨apts ++ [concAppt d dt t c0], PState.gotBooked, PState.idle⟩ := by
      simp [bookStep]
    have e3 : bookStep d dt t c0 c1
        ⟨apts ++ [concAppt d dt t c0], PState.gotBooked, PState.idle⟩ true
        = ⟨apts ++ [concAppt d dt t c0], PState.gotBooked, PState.gotConflict⟩ := by
      simp [bookStep, h1]
    have e4 : bookStep d dt t c0 c1
        ⟨apts ++ [concAppt d dt t c0], PState.gotBooked, PState.gotConflict⟩ true
        = ⟨apts ++ [concAppt d dt t c0], PState.gotBooked, PState.gotConflict⟩ := by
      simp [bookStep]
    simp [bookRun, e1, e2, e3, e4]
  · have e1 : bookStep d dt t c0 c1 ⟨apts, PState.idle, PState.idle⟩ true
        = ⟨apts, PState.idle, PState.passed⟩ := by
      simp [bookStep, h0]
    have e2 : bookStep d dt t c0 c1 ⟨apts, PState.idle, PState.passed⟩ true
        = ⟨apts ++ [concAppt d dt t c1], PState.idle, PState.gotBooked⟩ := by
      simp [bookStep]
    have e3 : bookStep d dt t c0 c1
        ⟨apts ++ [concAppt d dt t c1], PState.idle, PState.gotBooked⟩ false
        = ⟨apts ++ [concAppt d dt t c1], PState.gotConflict, PState.gotBooked⟩ := by
      simp [bookStep, h2]
    have e4 : bookStep d dt t c0 c1
        ⟨apts ++ [concAppt d dt t c1], PState.gotConflict, PState.gotBooked⟩ false
        = ⟨apts ++ [concAppt d dt t c1], PState.gotConflict, PState.gotBooked⟩ := by
      simp [bookStep]
    simp [bookRun, e1, e2, e3, e4]

/-- Witness for the amended C2 on an empty appointments collection. -/
theorem serial_booking_mutual_exclusion_witness :
    (∀ a ∈ ([] : List Appointment), blocksSlot a 1 2 540 = false) ∧
    (((bookRun 1 2 540 cfgA cfgB ⟨[], PState.idle, PState.idle⟩
        [false, false, true, true]).s0 = PState.gotBooked ∧
      (bookRun 1 2 540 cfgA cfgB ⟨[], PState.idle, PState.idle⟩
        [false, false, true, true]).s1 = PState.gotConflict ∧
      (bookRun 1 2 540 cfgA cfgB ⟨[], PState.idle, PState.idle⟩
        [false, false, true, true]).apts = [] ++ [concAppt 1 2 540 cfgA]) ∧
     ((bookRun 1 2 540 cfgA cfgB ⟨[], PState.idle, PState.idle⟩
        [true, true, false, false]).s1 = PState.gotBooked ∧
      (bookRun 1 2 540 cfgA cfgB ⟨[], PState.idle, PState.idle⟩
        [true, true, false, false]).s0 = PState.gotConflict ∧
      (bookRun 1 2 540 cfgA cfgB ⟨[], PState.idle, PState.idle⟩
        [true, true, false, false]).apts = [] ++ [concAppt 1 2 540 cfgB])) :=
  ⟨by simp, serial_booking_mutual_exclusion [] 1 2 540 cfgA cfgB (by simp)⟩

/-- Witness for C10: cancelling appointment 2 rewrites only that record. -/
theorem cancel_frame_witness :
    (putAppointment [apptA, apptB] (some 2) (some Status.cancelled) (some 6) 99
      = (PutResult.success,
         [apptA, { apptB with status := Status.cancelled, updatedAt := 99 }])) ∧
      ∃ l₁ a l₂, [apptA, apptB] = l₁ ++ a :: l₂ ∧ a.id = 2 ∧
        [apptA, { apptB with status := Status.cancelled, updatedAt := 99 }]
          = l₁ ++ { a with status := Status.cancelled, updatedAt := 99 } :: l₂ :=
  ⟨by decide,
   cancel_frame [apptA, apptB]
     [apptA, { apptB with status := Status.cancelled, updatedAt := 99 }]
     2 6 99 (by decide)⟩

end Clinic
